import Mathlib

/-!
Verification of the NetSpeedGraphs measurement-to-persisted-timeseries
pipeline (src/main.py).

Modelling choices, recorded once here:

* A CSV file is modelled at the level of lines of comma-separated fields:
  `FileState = Option (List (List String))`, where `none` is a missing file
  and `some ls` is a file whose lines have the given field lists.  The
  actual text of such a file is recovered by `fileText` below; since no
  field written by the program ever contains a comma or a newline
  (timestamps are ISO strings, numbers render to digits, dot and minus),
  the field-list view and the text view are in bijection on every state
  the program produces.
* Python float values are modelled exactly as scaled decimals `Dec`
  (mantissa and decimal exponent, value m / 10 ^ e); `decStr` models the
  Python `str` rendering of such a value and `parseField` models the
  numeric reading of a cell (what `float` or the pandas parser computes on
  such a string).  The round trip `parseField (decStr d) = d.toRat` is
  proved below (`parseField_decStr`).
* `pd.read_csv(path, usecols=DATA_HEADER, parse_dates=[0])` is modelled by
  `readResults` on `FileState`: a missing file is a read failure
  (FileNotFoundError), an empty file is a failure (EmptyDataError), a
  header that does not contain every `usecols` name is a failure
  (ValueError), blank lines are skipped, short rows are padded with empty
  cells (pandas fills missing trailing fields with NaN, and an empty cell
  reads as NaN), and rows longer than the header are mapped to a
  `parserError` result (pandas either raises or infers an index there;
  no theorem below depends on that branch).  Cell values are kept as
  strings: the contemporary pandas reader performs no per-cell
  validation, a non-numeric cell simply yields an object column and an
  unparseable `Time` cell leaves the column unparsed, without raising.
-/

/-- The fixed persisted header, from main.py DATA_HEADER. -/
def DATA_HEADER : List String :=
  ["Time", "Ping (ms)", "Download Speed (Mbs)", "Upload Speed (Mbs)"]

/-- A CSV file: absent, or a list of lines, each a list of fields. -/
abbrev FileState := Option (List (List String))

/-- A Python float modelled as the exact decimal m / 10 ^ e. -/
structure Dec where
  m : Int
  e : Nat
deriving DecidableEq, Repr

/-- The rational value of a `Dec`. -/
def Dec.toRat (d : Dec) : ℚ := (d.m : ℚ) / (10 : ℚ) ^ d.e

/-- Big-endian decimal digit characters of a natural number (empty for 0). -/
def natChars (n : Nat) : List Char := ((Nat.digits 10 n).reverse).map Nat.digitChar

/-- Decimal string of a natural number, as Python str renders it. -/
def natStr (n : Nat) : String := if n = 0 then "0" else String.mk (natChars n)

/-- Little-endian list of exactly e low decimal digits of n. -/
def padDigits : Nat → Nat → List Nat
  | 0, _ => []
  | e + 1, n => n % 10 :: padDigits e (n / 10)

/-- Big-endian character rendering of the e low decimal digits of n. -/
def fracChars (e n : Nat) : List Char := ((padDigits e n).reverse).map Nat.digitChar

/-- Models Python str on a float that is the exact decimal m / 10 ^ e:
the sign, the integer part, a dot, then exactly e fractional digits
(Python renders integral floats with a trailing .0). -/
def decStr (d : Dec) : String :=
  let n := d.m.natAbs
  let body := if d.e = 0 then natStr n ++ ".0"
              else natStr (n / 10 ^ d.e) ++ "." ++ String.mk (fracChars d.e n)
  (if d.m < 0 then "-" else "") ++ body

/-- Models storeResults(results, path) from main.py: `now` is the
isoformat string of the current time, `results` the list-like of float
results.  If the path does not exist the fixed header line is written
first, then the row [now.isoformat(), *[str(i) for i in results]] is
appended. -/
def storeResults (now : String) (results : List Dec) (st : FileState) : FileState :=
  let row : List String := now :: results.map decStr
  let header := st.isNone
  let lines := st.getD []
  let lines := if header then lines ++ [DATA_HEADER] else lines
  some (lines ++ [row])

/-- Sequential appends: each element carries its capture-time isoformat
string and its results list. -/
def appendAll (xs : List (String × List Dec)) (st : FileState) : FileState :=
  xs.foldl (fun s p => storeResults p.1 p.2 s) st

/-- The row of fields one append writes for a sample. -/
def rowOf (p : String × List Dec) : List String := p.1 :: p.2.map decStr

/-- Text of one line: the fields joined by commas, terminated by a
newline, as written by out.write(','.join(row) + chr(10)). -/
def lineText : List String → String
  | [] => "\n"
  | [f] => f ++ "\n"
  | f :: g :: fs => f ++ "," ++ lineText (g :: fs)

/-- Full text of a file in the field-list model. -/
def fileText : List (List String) → String
  | [] => ""
  | l :: ls => lineText l ++ fileText ls

/-- Python str.capitalize(): first character upper-cased, the rest
lower-cased. -/
def pyCapitalize (s : String) : String :=
  match s.data with
  | [] => ""
  | c :: cs => String.mk (c.toUpper :: cs.map Char.toLower)

/-- Python s.split()[0]: the first whitespace-separated token (the
header names only contain plain spaces). -/
def pyFirstToken (s : String) : String :=
  String.mk ((s.data.dropWhile (fun c => c = ' ')).takeWhile (fun c => c ≠ ' '))

/-- Python str.strip(): surrounding whitespace removed. -/
def pyStrip (s : String) : String :=
  String.mk (((s.data.dropWhile (fun c => c = ' ')).reverse.dropWhile (fun c => c = ' ')).reverse)

/-- The rename applied in readResults to each fixed header name:
i.split()[0].strip().capitalize(). -/
def pyRename (s : String) : String :=
  pyCapitalize (pyStrip (pyFirstToken s))

/-- The tabular result of a read, with its column names. -/
structure DataFrame where
  columns : List String
  rows : List (List String)
deriving DecidableEq, Repr

/-- Read-time failures of pd.read_csv as called by readResults. -/
inductive ReadError where
  /-- FileNotFoundError: the path does not exist. -/
  | storeNotFound
  /-- EmptyDataError: no columns to parse. -/
  | emptyData
  /-- ValueError: usecols names missing from the on-disk header. -/
  | usecolsMismatch
  /-- A data row with more fields than the header. -/
  | parserError
deriving DecidableEq, Repr

/-- Models readResults(path) from main.py:
pd.read_csv(path, usecols=DATA_HEADER, parse_dates=[0]) followed by
data.rename(columns={i: i.split()[0].strip().capitalize() for i in
DATA_HEADER}).  Column selection keeps, in on-disk order, the header
columns whose names occur (exactly) in DATA_HEADER; the rename maps a
selected name through pyRename when it is a DATA_HEADER name. -/
def readResults (st : FileState) : Except ReadError DataFrame :=
  match st with
  | none => .error .storeNotFound
  | some ls =>
    let ls := ls.filter (fun l => l ≠ [""])
    match ls with
    | [] => .error .emptyData
    | header :: rows =>
      if ¬ DATA_HEADER.all (fun c => c ∈ header) then .error .usecolsMismatch
      else if rows.any (fun r => header.length < r.length) then .error .parserError
      else
        let idxs := (List.range header.length).filter (fun i => header.getD i "" ∈ DATA_HEADER)
        let cols := idxs.map (fun i => header.getD i "")
        let renamed := cols.map (fun c => if c ∈ DATA_HEADER then pyRename c else c)
        .ok ⟨renamed, rows.map (fun r => idxs.map (fun i => r.getD i ""))⟩

/-- A read as an operation on the file system: it returns the parsed
history and leaves the file exactly as it was (the file is only opened
for reading). -/
def readAllOp (st : FileState) : Except ReadError DataFrame × FileState :=
  (readResults st, st)

/-- Models allTests() from main.py, parameterised by the opaque probe
outputs: the latency of the best server in ms, and the raw download and
upload throughputs in bits per second.  Returns
(latency, down / 1e6, up / 1e6). -/
def allTests (latency down up : ℚ) : ℚ × ℚ × ℚ :=
  (latency, down / 1000000, up / 1000000)

/-- Numeric value of the digit character c. -/
def charVal (c : Char) : Nat := c.toNat - 48

/-- Value of a big-endian digit character list. -/
def parseNatChars (cs : List Char) : Nat := cs.foldl (fun a c => 10 * a + charVal c) 0

/-- Splits a character list at the first dot. -/
def takeUntilDot : List Char → List Char × List Char
  | [] => ([], [])
  | c :: cs => if c = '.' then ([], cs) else
      ((takeUntilDot cs).1.cons c, (takeUntilDot cs).2)

/-- Value of an unsigned decimal character string: the integer part
before the first dot, plus the fractional part scaled by its width. -/
def parseUnsigned (cs : List Char) : ℚ :=
  let p := takeUntilDot cs
  (parseNatChars p.1 : ℚ) + (parseNatChars p.2 : ℚ) / (10 : ℚ) ^ p.2.length

/-- Models the numeric reading of a decimal cell string (what the float
constructor, and hence the pandas numeric parser, computes on such a
string): optional leading minus, then the unsigned value. -/
def parseField (s : String) : ℚ :=
  if s.data.head? = some '-' then -(parseUnsigned s.data.tail) else parseUnsigned s.data

/-- A path in a state the store itself produces: absent, or a file whose
first line is the fixed header and whose data rows all have the four
schema fields. -/
def ValidStore (st : FileState) : Prop :=
  st = none ∨ ∃ rows, st = some (DATA_HEADER :: rows) ∧ ∀ r ∈ rows, r.length = 4

/-! Digit-level lemmas: rendering a number with decStr and reading the
cell back with parseField recovers the exact value. -/

theorem digitChar_facts : ∀ d < 10, charVal (Nat.digitChar d) = d ∧
    Nat.digitChar d ≠ '.' ∧ Nat.digitChar d ≠ '-' := by decide
theorem parseNatChars_snoc (cs : List Char) (c : Char) :
    parseNatChars (cs ++ [c]) = 10 * parseNatChars cs + charVal c := by
  simp [parseNatChars, List.foldl_append]
theorem parseNatChars_rev_digits (ds : List Nat) (h : ∀ d ∈ ds, d < 10) :
    parseNatChars ((ds.reverse).map Nat.digitChar) = Nat.ofDigits 10 ds := by
  induction ds with
  | nil => rfl
  | cons d ds ih =>
    rw [List.reverse_cons, List.map_append]
    simp only [List.map_cons, List.map_nil]
    rw [parseNatChars_snoc, Nat.ofDigits_cons]
    rw [ih (fun x hx => h x (List.mem_cons_of_mem _ hx)),
        (digitChar_facts d (h d (List.mem_cons_self _ _))).1]
    ring
theorem parseNatChars_natChars (n : Nat) : parseNatChars (natChars n) = n := by
  rw [natChars, parseNatChars_rev_digits _ (fun d hd => Nat.digits_lt_base (by norm_num) hd),
      Nat.ofDigits_digits]
theorem natStr_data (n : Nat) : (natStr n).data = if n = 0 then ['0'] else natChars n := by
  by_cases h : n = 0 <;> simp [natStr, h]
theorem natChars_mem (n : Nat) : ∀ c ∈ natChars n, c ≠ '.' ∧ c ≠ '-' := by
  intro c hc
  rcases List.mem_map.mp hc with ⟨d, hd, rfl⟩
  have hd10 : d < 10 := Nat.digits_lt_base (by norm_num) (List.mem_reverse.mp hd)
  exact ⟨(digitChar_facts d hd10).2.1, (digitChar_facts d hd10).2.2⟩
theorem natStr_mem (n : Nat) : ∀ c ∈ (natStr n).data, c ≠ '.' ∧ c ≠ '-' := by
  intro c hc
  rw [natStr_data] at hc
  by_cases h : n = 0
  · simp [h] at hc
    subst hc
    exact ⟨by decide, by decide⟩
  · simp [h] at hc
    exact natChars_mem n c hc
theorem natStr_parse (n : Nat) : parseNatChars (natStr n).data = n := by
  rw [natStr_data]
  by_cases h : n = 0
  · subst h; rfl
  · simp [h, parseNatChars_natChars]
theorem mod_pow_split (n e : Nat) : n % 10 ^ (e+1) = n % 10 + 10 * (n / 10 % 10 ^ e) := by
  have hB : 0 < 10 ^ e := pow_pos (by norm_num) e
  have hlt : 10 * (n / 10 % 10 ^ e) + n % 10 < 10 * 10 ^ e := by
    have h1 : n / 10 % 10 ^ e < 10 ^ e := Nat.mod_lt _ hB
    have h2 : n % 10 < 10 := Nat.mod_lt _ (by norm_num)
    omega
  have h := Nat.div_add_mod (n / 10) (10 ^ e)
  have key : n = (10 * (n / 10 % 10 ^ e) + n % 10) + (10 * 10 ^ e) * (n / 10 / 10 ^ e) := by
    conv_lhs => rw [← Nat.div_add_mod n 10, ← h]
    ring
  rw [pow_succ, mul_comm (10 ^ e) 10]
  conv_lhs => rw [key]
  rw [Nat.add_mul_mod_self_left, Nat.mod_eq_of_lt hlt]
  omega
theorem ofDigits_padDigits (e n : Nat) : Nat.ofDigits 10 (padDigits e n) = n % 10 ^ e := by
  induction e generalizing n with
  | zero => simp [padDigits, Nat.ofDigits, Nat.mod_one]
  | succ e ih =>
    rw [padDigits, Nat.ofDigits_cons, ih, mod_pow_split]
theorem length_padDigits (e n : Nat) : (padDigits e n).length = e := by
  induction e generalizing n with
  | zero => rfl
  | succ e ih => simp [padDigits, ih]
theorem padDigits_lt (e n : Nat) : ∀ d ∈ padDigits e n, d < 10 := by
  induction e generalizing n with
  | zero => simp [padDigits]
  | succ e ih =>
    intro d hd
    rcases List.mem_cons.mp hd with h | h
    · subst h; exact Nat.mod_lt _ (by norm_num)
    · exact ih _ d h

theorem takeUntilDot_split (as bs : List Char) (h : ∀ c ∈ as, c ≠ '.') :
    takeUntilDot (as ++ '.' :: bs) = (as, bs) := by
  induction as with
  | nil => simp [takeUntilDot]
  | cons a as ih =>
    have ha : a ≠ '.' := h a (List.mem_cons_self _ _)
    have ih2 := ih (fun c hc => h c (List.mem_cons_of_mem _ hc))
    simp only [List.cons_append, takeUntilDot, if_neg ha, List.append_eq, ih2]

theorem parseNatChars_fracChars (e n : Nat) :
    parseNatChars (fracChars e n) = n % 10 ^ e := by
  rw [fracChars, parseNatChars_rev_digits _ (padDigits_lt e n), ofDigits_padDigits]

theorem length_fracChars (e n : Nat) : (fracChars e n).length = e := by
  simp [fracChars, length_padDigits]

theorem fracChars_mem (e n : Nat) : ∀ c ∈ fracChars e n, c ≠ '.' ∧ c ≠ '-' := by
  intro c hc
  rcases List.mem_map.mp hc with ⟨d, hd, rfl⟩
  have hd10 : d < 10 := padDigits_lt e n d (List.mem_reverse.mp hd)
  exact ⟨(digitChar_facts d hd10).2.1, (digitChar_facts d hd10).2.2⟩

theorem parseUnsigned_split (as bs : List Char) (h : ∀ c ∈ as, c ≠ '.') :
    parseUnsigned (as ++ '.' :: bs) =
      (parseNatChars as : ℚ) + (parseNatChars bs : ℚ) / (10 : ℚ) ^ bs.length := by
  rw [parseUnsigned, takeUntilDot_split as bs h]

theorem div_mod_rat (n e : Nat) :
    ((n / 10 ^ e : Nat) : ℚ) + ((n % 10 ^ e : Nat) : ℚ) / (10 : ℚ) ^ e = (n : ℚ) / (10 : ℚ) ^ e := by
  have h10 : ((10 : ℚ) ^ e) ≠ 0 := by positivity
  have h2 : ((10 : ℚ)) ^ e * ((n / 10 ^ e : Nat) : ℚ) + ((n % 10 ^ e : Nat) : ℚ) = (n : ℚ) := by
    exact_mod_cast Nat.div_add_mod n (10 ^ e)
  rw [eq_div_iff h10, add_mul, div_mul_cancel₀ _ h10]
  linarith [h2]

theorem bodyZ_data (n : Nat) : (natStr n ++ ".0").data = (natStr n).data ++ '.' :: ['0'] := by
  rw [String.data_append]

theorem bodyP_data (n e : Nat) :
    (natStr (n / 10 ^ e) ++ "." ++ String.mk (fracChars e n)).data
      = (natStr (n / 10 ^ e)).data ++ '.' :: fracChars e n := by
  simp only [String.data_append, List.append_assoc]
  rfl

theorem parseUnsigned_bodyZ (n : Nat) : parseUnsigned (natStr n ++ ".0").data = (n : ℚ) := by
  rw [bodyZ_data, parseUnsigned_split _ _ (fun c hc => (natStr_mem n c hc).1), natStr_parse]
  have h0 : parseNatChars ['0'] = 0 := by decide
  rw [h0]
  norm_num

theorem parseUnsigned_bodyP (n e : Nat) :
    parseUnsigned (natStr (n / 10 ^ e) ++ "." ++ String.mk (fracChars e n)).data
      = (n : ℚ) / (10 : ℚ) ^ e := by
  rw [bodyP_data, parseUnsigned_split _ _ (fun c hc => (natStr_mem _ c hc).1), natStr_parse,
    parseNatChars_fracChars, length_fracChars, div_mod_rat]

theorem bodyZ_mem (n : Nat) : ∀ c ∈ (natStr n ++ ".0").data, c ≠ '-' := by
  intro c hc
  rw [bodyZ_data] at hc
  rcases List.mem_append.mp hc with h | h
  · exact (natStr_mem n c h).2
  · rcases List.mem_cons.mp h with h1 | h1
    · subst h1; decide
    · simp at h1
      subst h1; decide

theorem bodyP_mem (n e : Nat) :
    ∀ c ∈ (natStr (n / 10 ^ e) ++ "." ++ String.mk (fracChars e n)).data, c ≠ '-' := by
  intro c hc
  rw [bodyP_data] at hc
  rcases List.mem_append.mp hc with h | h
  · exact (natStr_mem _ c h).2
  · rcases List.mem_cons.mp h with h1 | h1
    · subst h1; decide
    · exact (fracChars_mem e n c h1).2

theorem parseField_of_no_minus (s : String) (h : ∀ c ∈ s.data, c ≠ '-') :
    parseField s = parseUnsigned s.data := by
  rw [parseField, if_neg]
  intro hhead
  cases hd : s.data with
  | nil => rw [hd] at hhead; simp at hhead
  | cons c cs =>
    rw [hd] at hhead
    simp at hhead
    exact h c (by rw [hd]; exact List.mem_cons_self _ _) hhead

theorem parseField_neg (s : String) (cs : List Char) (h : s.data = '-' :: cs) :
    parseField s = -(parseUnsigned cs) := by
  rw [parseField, h]
  simp

theorem parseField_decStr (d : Dec) : parseField (decStr d) = d.toRat := by
  rcases d with ⟨m, e⟩
  have habs : ¬ m < 0 → ((m.natAbs : Nat) : ℚ) = (m : ℚ) := by
    intro hm
    rw [Int.cast_natAbs, Int.cast_abs]
    exact abs_of_nonneg (by exact_mod_cast not_lt.mp hm)
  have habsneg : m < 0 → ((m.natAbs : Nat) : ℚ) = -(m : ℚ) := by
    intro hm
    rw [Int.cast_natAbs, Int.cast_abs]
    exact abs_of_neg (by exact_mod_cast hm)
  by_cases hm : m < 0 <;> by_cases he : e = 0
  · subst he
    have : decStr ⟨m, 0⟩ = "-" ++ (natStr m.natAbs ++ ".0") := by
      simp [decStr, hm]
    have hdat : ("-" ++ (natStr m.natAbs ++ ".0")).data
        = '-' :: (natStr m.natAbs ++ ".0").data := by
      rw [String.data_append]
      rfl
    rw [this, parseField_neg _ _ hdat, parseUnsigned_bodyZ, Dec.toRat, habsneg hm]
    norm_num
  · have : decStr ⟨m, e⟩ = "-" ++ (natStr (m.natAbs / 10 ^ e) ++ "." ++ String.mk (fracChars e m.natAbs)) := by
      simp [decStr, hm, he]
    have hdat : ("-" ++ (natStr (m.natAbs / 10 ^ e) ++ "." ++ String.mk (fracChars e m.natAbs))).data
        = '-' :: (natStr (m.natAbs / 10 ^ e) ++ "." ++ String.mk (fracChars e m.natAbs)).data := by
      rw [String.data_append]
      rfl
    rw [this, parseField_neg _ _ hdat, parseUnsigned_bodyP, Dec.toRat, habsneg hm]
    ring
  · subst he
    have hds : decStr ⟨m, 0⟩ = natStr m.natAbs ++ ".0" := by
      simp [decStr, hm]
    rw [hds, parseField_of_no_minus _ (bodyZ_mem m.natAbs), parseUnsigned_bodyZ,
      Dec.toRat, habs hm]
    norm_num
  · have hds : decStr ⟨m, e⟩ = natStr (m.natAbs / 10 ^ e) ++ "." ++ String.mk (fracChars e m.natAbs) := by
      simp [decStr, hm, he]
    rw [hds, parseField_of_no_minus _ (bodyP_mem m.natAbs e), parseUnsigned_bodyP,
      Dec.toRat, habs hm]

/-! Read-side helper lemmas: a well-formed store file (fixed header plus
four-field rows) is read back verbatim with the renamed columns. -/

/-- Selecting the four schema positions of a four-field row returns the
row itself. -/
theorem sel4 (r : List String) (h : r.length = 4) :
    [r.getD 0 "", r.getD 1 "", r.getD 2 "", r.getD 3 ""] = r := by
  rcases r with _ | ⟨a, _ | ⟨b, _ | ⟨c, _ | ⟨d, t⟩⟩⟩⟩ <;> simp_all

/-- Blank-line skipping keeps every line of a well-formed store file. -/
theorem filter_keep (rows : List (List String)) (h : ∀ r ∈ rows, r.length = 4) :
    (DATA_HEADER :: rows).filter (fun l => l ≠ [""]) = DATA_HEADER :: rows := by
  rw [List.filter_eq_self]
  intro a ha
  rcases List.mem_cons.mp ha with rfl | ha
  · decide
  · have h4 := h a ha
    simp only [ne_eq, decide_not, Bool.not_eq_eq_eq_not, Bool.not_true, decide_eq_false_iff_not]
    intro hcontra
    rw [hcontra] at h4
    simp at h4

/-- Reading a well-formed store file succeeds and returns the data rows
verbatim under the renamed columns. -/
theorem readResults_valid (rows : List (List String)) (h : ∀ r ∈ rows, r.length = 4) :
    readResults (some (DATA_HEADER :: rows)) =
      .ok ⟨["Time", "Ping", "Download", "Upload"], rows⟩ := by
  rw [readResults]
  simp only [filter_keep rows h]
  rw [if_neg (by decide)]
  rw [if_neg (by
    simp only [List.any_eq_true, not_exists, not_and]
    intro r hr
    have h4 := h r hr
    simp [h4, DATA_HEADER])]
  have hidx : ((List.range DATA_HEADER.length).filter
      (fun i => DATA_HEADER.getD i "" ∈ DATA_HEADER)) = [0, 1, 2, 3] := by decide
  simp only [hidx]
  have hren : ([0, 1, 2, 3].map (fun i => DATA_HEADER.getD i "")).map
      (fun c => if c ∈ DATA_HEADER then pyRename c else c) = ["Time", "Ping", "Download", "Upload"] := by
    decide
  simp only [hren]
  have hmap : rows.map (fun r => [0, 1, 2, 3].map (fun i => r.getD i "")) = rows := by
    calc rows.map (fun r => [0, 1, 2, 3].map (fun i => r.getD i ""))
        = rows.map id := List.map_congr_left (fun r hr => by
            simp only [List.map_cons, List.map_nil]
            exact sel4 r (h r hr))
      _ = rows := List.map_id rows
  rw [hmap]

/-! Store-side helper lemmas. -/

theorem storeResults_fresh (now : String) (results : List Dec) :
    storeResults now results none = some [DATA_HEADER, now :: results.map decStr] := rfl

theorem storeResults_existing (now : String) (results : List Dec) (ls : List (List String)) :
    storeResults now results (some ls) = some (ls ++ [now :: results.map decStr]) := by
  simp [storeResults]

theorem appendAll_some (xs : List (String × List Dec)) (ls : List (List String)) :
    appendAll xs (some ls) = some (ls ++ xs.map rowOf) := by
  induction xs generalizing ls with
  | nil => simp [appendAll]
  | cons p xs ih =>
    rw [appendAll, List.foldl_cons]
    have h1 : storeResults p.1 p.2 (some ls) = some (ls ++ [rowOf p]) :=
      storeResults_existing p.1 p.2 ls
    rw [h1]
    rw [show List.foldl (fun s q => storeResults q.1 q.2 s) (some (ls ++ [rowOf p])) xs
          = appendAll xs (some (ls ++ [rowOf p])) from rfl]
    rw [ih]
    simp

theorem fileText_concat (ls : List (List String)) (r : List String) :
    fileText (ls ++ [r]) = fileText ls ++ lineText r := by
  induction ls with
  | nil =>
    show lineText r ++ fileText [] = "" ++ lineText r
    rw [show fileText [] = "" from rfl, String.append_empty, String.empty_append]
  | cons l ls ih =>
    show lineText l ++ fileText (ls ++ [r]) = (lineText l ++ fileText ls) ++ lineText r
    rw [ih, String.append_assoc]

/-- C7: append serializes a sample as the isoformat timestamp followed by
the latency, download and upload values, joined by commas and terminated
by a single newline; on a fresh destination the first line written is
exactly the fixed header line. -/
theorem spec_append_serialization (now : String) (l d u : Dec) :
    storeResults now [l, d, u] none =
      some [DATA_HEADER, [now, decStr l, decStr d, decStr u]] ∧
    fileText [DATA_HEADER, [now, decStr l, decStr d, decStr u]] =
      "Time,Ping (ms),Download Speed (Mbs),Upload Speed (Mbs)\n" ++
        now ++ "," ++ decStr l ++ "," ++ decStr d ++ "," ++ decStr u ++ "\n" := by
  constructor
  · rfl
  · show lineText DATA_HEADER ++ (lineText [now, decStr l, decStr d, decStr u] ++ "") = _
    rw [String.append_empty]
    rw [show lineText DATA_HEADER
          = "Time,Ping (ms),Download Speed (Mbs),Upload Speed (Mbs)\n" from by decide]
    show _ ++ (now ++ "," ++ (decStr l ++ "," ++ (decStr d ++ "," ++ (decStr u ++ "\n")))) = _
    simp [String.append_assoc]

/-- C2: starting from a fresh path, N sequential appends produce exactly
one header line followed by the N data rows in append order, and each
append to an existing file only extends its text, leaving every
previously written line byte-for-byte unchanged. -/
theorem spec_header_once (xs : List (String × List Dec)) (h : xs ≠ []) :
    appendAll xs none = some (DATA_HEADER :: xs.map rowOf) ∧
    ∀ (now : String) (results : List Dec) (ls : List (List String)),
      storeResults now results (some ls) = some (ls ++ [now :: results.map decStr]) ∧
      fileText (ls ++ [now :: results.map decStr]) =
        fileText ls ++ lineText (now :: results.map decStr) := by
  constructor
  · cases xs with
    | nil => exact absurd rfl h
    | cons p xs =>
      rw [appendAll, List.foldl_cons]
      rw [show storeResults p.1 p.2 none = some [DATA_HEADER, rowOf p] from rfl]
      rw [show List.foldl (fun s q => storeResults q.1 q.2 s) (some [DATA_HEADER, rowOf p]) xs
            = appendAll xs (some [DATA_HEADER, rowOf p]) from rfl]
      rw [appendAll_some]
      simp
  · intro now results ls
    exact ⟨storeResults_existing now results ls, fileText_concat ls _⟩

/-- C2 witness at one concrete sample list. -/
theorem spec_header_once_witness :
    ([(("2024-01-01T12:00:00" : String), [Dec.mk 234 1, Dec.mk 871 1, Dec.mk 123 1])] ≠
        ([] : List (String × List Dec))) ∧
    (appendAll [("2024-01-01T12:00:00", [Dec.mk 234 1, Dec.mk 871 1, Dec.mk 123 1])] none =
      some (DATA_HEADER ::
        [("2024-01-01T12:00:00", [Dec.mk 234 1, Dec.mk 871 1, Dec.mk 123 1])].map rowOf) ∧
    ∀ (now : String) (results : List Dec) (ls : List (List String)),
      storeResults now results (some ls) = some (ls ++ [now :: results.map decStr]) ∧
      fileText (ls ++ [now :: results.map decStr]) =
        fileText ls ++ lineText (now :: results.map decStr)) :=
  ⟨by decide, spec_header_once _ (by decide)⟩

/-- C5: reading a nonexistent path fails with the missing-store error,
while reading an existing file holding only the header line succeeds with
an empty history. -/
theorem spec_missing_vs_empty :
    readResults none = .error .storeNotFound ∧
    readResults (some [DATA_HEADER]) =
      .ok ⟨["Time", "Ping", "Download", "Upload"], []⟩ :=
  ⟨rfl, readResults_valid [] (by simp)⟩

/-- C6: the probe adapter divides the raw bits-per-second throughputs by
one million and passes latency through: on latency 23.4, download
87100000 and upload 12300000 the sample fields are 23.4, 87.1 and 12.3. -/
theorem spec_probe_normalization :
    allTests (23.4 : ℚ) 87100000 12300000 = ((23.4 : ℚ), (87.1 : ℚ), (12.3 : ℚ)) ∧
    ∀ latency down up : ℚ,
      allTests latency down up = (latency, down / 1000000, up / 1000000) := by
  refine ⟨?_, fun latency down up => rfl⟩
  show ((23.4 : ℚ), (87100000 : ℚ) / 1000000, (12300000 : ℚ) / 1000000) = _
  norm_num

/-- C10: append validates neither arity nor schema: for any list of k
values it succeeds and appends a row of 1 + k fields, so an input with
k different from 3 silently persists a row violating the four-field
schema. -/
theorem spec_no_arity_validation (now : String) (results : List Dec) (st : FileState) :
    (∃ ls, storeResults now results st = some ls ∧
      ls.getLast? = some (now :: results.map decStr)) ∧
    (now :: results.map decStr).length = 1 + results.length ∧
    storeResults "t" [] none = some [DATA_HEADER, ["t"]] ∧
    (["t"] : List String).length ≠ 4 := by
  refine ⟨?_, by simp [Nat.add_comm], rfl, by decide⟩
  cases st with
  | none => exact ⟨[DATA_HEADER, now :: results.map decStr], rfl, rfl⟩
  | some ls =>
    exact ⟨ls ++ [now :: results.map decStr], storeResults_existing now results ls,
      List.getLast?_concat _⟩

/-- C1: appending a sample to a fresh path or to any valid store file and
then reading it back yields a history whose last entry carries the
appended timestamp string and the three serialized values, and those
serialized values read back as exactly the appended numbers. -/
theorem spec_roundtrip_last (now : String) (l d u : Dec) (st : FileState)
    (h : ValidStore st) :
    ∃ hist : DataFrame,
      readResults (storeResults now [l, d, u] st) = .ok hist ∧
      hist.rows.getLast? = some [now, decStr l, decStr d, decStr u] ∧
      parseField (decStr l) = l.toRat ∧ parseField (decStr d) = d.toRat ∧
      parseField (decStr u) = u.toRat := by
  have hrow : now :: [l, d, u].map decStr = [now, decStr l, decStr d, decStr u] := rfl
  rcases h with rfl | ⟨rows, rfl, hrows⟩
  · refine ⟨⟨["Time", "Ping", "Download", "Upload"],
      [[now, decStr l, decStr d, decStr u]]⟩, ?_, rfl,
      parseField_decStr l, parseField_decStr d, parseField_decStr u⟩
    rw [storeResults_fresh, hrow]
    exact readResults_valid [[now, decStr l, decStr d, decStr u]] (by simp)
  · refine ⟨⟨["Time", "Ping", "Download", "Upload"],
      rows ++ [[now, decStr l, decStr d, decStr u]]⟩, ?_,
      List.getLast?_concat _,
      parseField_decStr l, parseField_decStr d, parseField_decStr u⟩
    rw [storeResults_existing, hrow, List.cons_append]
    refine readResults_valid _ ?_
    intro r hr
    rcases List.mem_append.mp hr with h1 | h1
    · exact hrows r h1
    · simp at h1
      subst h1
      rfl

/-- C1 witness at a concrete sample appended to a fresh path. -/
theorem spec_roundtrip_last_witness :
    ValidStore none ∧
    ∃ hist : DataFrame,
      readResults (storeResults "2024-01-01T12:00:00"
          [Dec.mk 234 1, Dec.mk 871 1, Dec.mk 123 1] none) = .ok hist ∧
      hist.rows.getLast? = some ["2024-01-01T12:00:00", decStr (Dec.mk 234 1),
        decStr (Dec.mk 871 1), decStr (Dec.mk 123 1)] ∧
      parseField (decStr (Dec.mk 234 1)) = (Dec.mk 234 1).toRat ∧
      parseField (decStr (Dec.mk 871 1)) = (Dec.mk 871 1).toRat ∧
      parseField (decStr (Dec.mk 123 1)) = (Dec.mk 123 1).toRat :=
  ⟨Or.inl rfl, spec_roundtrip_last "2024-01-01T12:00:00" _ _ _ none (Or.inl rfl)⟩

/-- C8: reading a valid store file returns the data rows verbatim and in
on-disk order, whatever the timestamp fields contain: no sorting is
applied. -/
theorem spec_order_preserved (rows : List (List String))
    (h : ∀ r ∈ rows, r.length = 4) :
    readResults (some (DATA_HEADER :: rows)) =
      .ok ⟨["Time", "Ping", "Download", "Upload"], rows⟩ :=
  readResults_valid rows h

/-- C8 witness: two rows with strictly decreasing timestamps come back in
file order, not chronological order. -/
theorem spec_order_preserved_witness :
    (∀ r ∈ [["2025-06-01T00:00:00", "1.0", "2.0", "3.0"],
            ["2024-01-01T00:00:00", "4.0", "5.0", "6.0"]], r.length = 4) ∧
    readResults (some (DATA_HEADER ::
        [["2025-06-01T00:00:00", "1.0", "2.0", "3.0"],
         ["2024-01-01T00:00:00", "4.0", "5.0", "6.0"]])) =
      .ok ⟨["Time", "Ping", "Download", "Upload"],
        [["2025-06-01T00:00:00", "1.0", "2.0", "3.0"],
         ["2024-01-01T00:00:00", "4.0", "5.0", "6.0"]]⟩ :=
  ⟨by decide, spec_order_preserved _ (by decide)⟩

/-- C9: on a path holding a valid store file, two consecutive reads with
no intervening append return the same successful history, and reading
leaves the file unchanged. -/
theorem spec_idempotent_read (rows : List (List String))
    (h : ∀ r ∈ rows, r.length = 4) :
    (readAllOp (some (DATA_HEADER :: rows))).1 =
      (readAllOp ((readAllOp (some (DATA_HEADER :: rows))).2)).1 ∧
    (readAllOp ((readAllOp (some (DATA_HEADER :: rows))).2)).2 =
      some (DATA_HEADER :: rows) ∧
    ∃ hist, (readAllOp (some (DATA_HEADER :: rows))).1 = .ok hist :=
  ⟨rfl, rfl, ⟨_, readResults_valid rows h⟩⟩

/-- C9 witness at a concrete one-row store. -/
theorem spec_idempotent_read_witness :
    (∀ r ∈ [["2024-01-01T12:00:00", "23.4", "87.1", "12.3"]], r.length = 4) ∧
    ((readAllOp (some (DATA_HEADER :: [["2024-01-01T12:00:00", "23.4", "87.1", "12.3"]]))).1 =
      (readAllOp ((readAllOp (some (DATA_HEADER ::
          [["2024-01-01T12:00:00", "23.4", "87.1", "12.3"]]))).2)).1 ∧
    (readAllOp ((readAllOp (some (DATA_HEADER ::
        [["2024-01-01T12:00:00", "23.4", "87.1", "12.3"]]))).2)).2 =
      some (DATA_HEADER :: [["2024-01-01T12:00:00", "23.4", "87.1", "12.3"]]) ∧
    ∃ hist, (readAllOp (some (DATA_HEADER ::
        [["2024-01-01T12:00:00", "23.4", "87.1", "12.3"]]))).1 = .ok hist) :=
  ⟨by decide, spec_idempotent_read _ (by decide)⟩

/-- A header line that is not the blank line and does not contain every
fixed header name makes the read fail with the usecols mismatch error,
whatever the data rows are. -/
theorem readResults_reject (header : List String) (rows : List (List String))
    (hh : header ≠ [""]) (hmiss : ¬ DATA_HEADER.all (fun c => c ∈ header)) :
    readResults (some (header :: rows)) = .error .usecolsMismatch := by
  rw [readResults]
  rw [List.filter_cons_of_pos (by simpa using hh)]
  exact if_pos hmiss

/-- C3 counterexample: a store file whose single data row carries the
non-numeric throughput field abc is read successfully, with the corrupt
row in the history; no error of any kind is produced. -/
theorem spec_corrupt_row_cex :
    readResults (some [DATA_HEADER, ["2024-01-01T00:00:00", "23.4", "abc", "12.3"]]) =
      .ok ⟨["Time", "Ping", "Download", "Upload"],
        [["2024-01-01T00:00:00", "23.4", "abc", "12.3"]]⟩ ∧
    ∀ e, readResults
        (some [DATA_HEADER, ["2024-01-01T00:00:00", "23.4", "abc", "12.3"]]) ≠
      .error e := by
  have h := readResults_valid [["2024-01-01T00:00:00", "23.4", "abc", "12.3"]] (by decide)
  exact ⟨h, fun e hc => by rw [h] at hc; exact Except.noConfusion hc⟩

/-- C3 amended: the read performs no per-cell validation: any four-field
data row, non-numeric or unparseable fields included, is returned as
part of the history unchanged and in place, and the call succeeds; rows
are never skipped and never rejected. -/
theorem spec_no_cell_validation (t p dl ul : String) (good : List (List String))
    (h : ∀ r ∈ good, r.length = 4) :
    readResults (some (DATA_HEADER :: (good ++ [[t, p, dl, ul]]))) =
      .ok ⟨["Time", "Ping", "Download", "Upload"], good ++ [[t, p, dl, ul]]⟩ := by
  refine readResults_valid _ ?_
  intro r hr
  rcases List.mem_append.mp hr with h1 | h1
  · exact h r h1
  · simp at h1
    subst h1
    rfl

/-- C3 amended witness: one good row followed by the corrupt row. -/
theorem spec_no_cell_validation_witness :
    (∀ r ∈ [["2024-01-01T00:00:00", "23.4", "87.1", "12.3"]], r.length = 4) ∧
    readResults (some (DATA_HEADER ::
        ([["2024-01-01T00:00:00", "23.4", "87.1", "12.3"]] ++
          [["2024-01-02T00:00:00", "nan?", "abc", "oops"]]))) =
      .ok ⟨["Time", "Ping", "Download", "Upload"],
        [["2024-01-01T00:00:00", "23.4", "87.1", "12.3"]] ++
          [["2024-01-02T00:00:00", "nan?", "abc", "oops"]]⟩ :=
  ⟨by decide, spec_no_cell_validation "2024-01-02T00:00:00" "nan?" "abc" "oops" _ (by decide)⟩

/-- C4 counterexample: an on-disk header differing from the fixed header
only in letter case is rejected with the usecols mismatch error instead
of being accepted. -/
theorem spec_header_case_cex :
    readResults (some [["TIME", "PING (MS)", "DOWNLOAD SPEED (MBS)", "UPLOAD SPEED (MBS)"],
        ["2024-01-01T00:00:00", "1.0", "2.0", "3.0"]]) =
      .error .usecolsMismatch :=
  readResults_reject _ _ (by decide) (by decide)

/-- C4 amended: column selection matches on-disk names against the fixed
header exactly; the split, strip and capitalize normalization only
derives the short output column names from the fixed header names, and a
header whose names differ in case is rejected for every row list. -/
theorem spec_header_exact_match (rows : List (List String))
    (h : ∀ r ∈ rows, r.length = 4) :
    readResults (some (DATA_HEADER :: rows)) = .ok ⟨DATA_HEADER.map pyRename, rows⟩ ∧
    DATA_HEADER.map pyRename = ["Time", "Ping", "Download", "Upload"] ∧
    ∀ rows2, readResults
        (some (["TIME", "PING (MS)", "DOWNLOAD SPEED (MBS)", "UPLOAD SPEED (MBS)"] :: rows2)) =
      .error .usecolsMismatch := by
  have hren : DATA_HEADER.map pyRename = ["Time", "Ping", "Download", "Upload"] := by decide
  refine ⟨?_, hren, fun rows2 => readResults_reject _ _ (by decide) (by decide)⟩
  rw [hren]
  exact readResults_valid rows h

/-- C4 amended witness at a concrete one-row store. -/
theorem spec_header_exact_match_witness :
    (∀ r ∈ [["2024-01-01T12:00:00", "23.4", "87.1", "12.3"]], r.length = 4) ∧
    (readResults (some (DATA_HEADER :: [["2024-01-01T12:00:00", "23.4", "87.1", "12.3"]])) =
      .ok ⟨DATA_HEADER.map pyRename, [["2024-01-01T12:00:00", "23.4", "87.1", "12.3"]]⟩ ∧
    DATA_HEADER.map pyRename = ["Time", "Ping", "Download", "Upload"] ∧
    ∀ rows2, readResults
        (some (["TIME", "PING (MS)", "DOWNLOAD SPEED (MBS)", "UPLOAD SPEED (MBS)"] :: rows2)) =
      .error .usecolsMismatch) :=
  ⟨by decide, spec_header_exact_match _ (by decide)⟩
